import Mathlib

/-!
Verification of the batch PDF-audit orchestration service (`src/main.py`)
against its natural-language specification.

The Python program is shallowly embedded: pure helpers become Lean
functions; the sqlite `audit_items` table becomes an association list of
`item_id ↦ JobRecord`; the effects of the external world (HTTP transport,
PDF parser, reasoning engine) are passed in explicitly as outcome values,
so that each code path of the program is reached by choosing the
corresponding outcome.  Machine details that no claim depends on
(temp-file bookkeeping, logging, the surrogate-pair re-encoding fallback
that cannot fire on well-formed unicode text) are not modelled.
-/

namespace ReviewAPI

/-! ## Basic string helpers mirroring Python primitives -/

/-- Python `str.lower()` restricted to the characters that actually occur
in HTTP `content-type` headers (ASCII); `Char.toLower` matches it there. -/
def toLowerStr (s : String) : String :=
  (s.toList.map Char.toLower).asString

/-- Python `needle in hay` substring test, as a scan over the haystack. -/
def containsSubAux (needle : List Char) : List Char → Bool
  | [] => needle.isEmpty
  | c :: rest => needle.isPrefixOf (c :: rest) || containsSubAux needle rest

/-- Python `needle in hay` substring test. -/
def containsSub (needle hay : String) : Bool :=
  containsSubAux needle.toList hay.toList

/-- Python `s.startswith(pre)`, tested over code points. -/
def strStartsWith (s pre : String) : Bool :=
  pre.toList.isPrefixOf s.toList

/-- Hex digit character used by the JSON encoder (`0`-`9`, `a`-`f`). -/
def hexDigit (n : Nat) : Char :=
  if n < 10 then Char.ofNat (48 + n) else Char.ofNat (87 + n)

/-- Value of a hex digit character, used by the JSON decoder. -/
def hexVal (c : Char) : Nat :=
  if c.toNat ≥ 97 then c.toNat - 87
  else if c.toNat ≥ 65 then c.toNat - 55
  else c.toNat - 48

/-- How Python `json.dumps` (with `ensure_ascii=False`) escapes one
character of a string value. -/
def jsonEscapeChar (c : Char) : String :=
  if c = '"' then ("\\\"")
  else if c = '\\' then ("\\\\")
  else if c = '\n' then ("\\n")
  else if c = '\r' then ("\\r")
  else if c = '\t' then ("\\t")
  else if c.toNat = 8 then ("\\b")
  else if c.toNat = 12 then ("\\f")
  else if c.toNat < 32 then
    (['\\', 'u', '0', '0', hexDigit (c.toNat / 16), hexDigit (c.toNat % 16)]).asString
  else String.singleton c

/-- Python `json.dumps(s, ensure_ascii=False)` applied to a string value:
the escaped text wrapped in double quotes.  `main.py` stores the engine
answer in the `result` column through this encoding (line 370). -/
def json_dumps_str (s : String) : String :=
  "\"" ++ String.join (s.toList.map jsonEscapeChar) ++ "\""

/-- Unescaping of a JSON string body (inverse of `jsonEscapeChar` on the
encoder's output).  Only the escape sequences the encoder emits matter:
every stored `result` is an encoder output. -/
def jsonUnescape : List Char → List Char
  | [] => []
  | ['\\'] => []
  | '\\' :: 'u' :: a :: b :: c :: d :: rest =>
      Char.ofNat (hexVal a * 4096 + hexVal b * 256 + hexVal c * 16 + hexVal d) :: jsonUnescape rest
  | '\\' :: 'n' :: rest => '\n' :: jsonUnescape rest
  | '\\' :: 'r' :: rest => '\r' :: jsonUnescape rest
  | '\\' :: 't' :: rest => '\t' :: jsonUnescape rest
  | '\\' :: 'b' :: rest => Char.ofNat 8 :: jsonUnescape rest
  | '\\' :: 'f' :: rest => Char.ofNat 12 :: jsonUnescape rest
  | '\\' :: c :: rest => c :: jsonUnescape rest
  | c :: rest => c :: jsonUnescape rest

/-- Python `json.loads` applied to an encoded string value (the only kind
of JSON document this program ever stores in the `result` column):
strips the surrounding quotes and unescapes the body. -/
def json_loads_str (s : String) : String :=
  match s.toList with
  | '"' :: rest => (jsonUnescape rest.dropLast).asString
  | l => l.asString

/-! ## Constants from `main.py` -/

/-- `main.py` line 26: the marker sentence at which extracted text is
truncated. -/
def SENTENCES : String := "对其他来源资金的经费来源、资金具体开支用途做简要说明。"

/-- `main.py` line 33. -/
def MAX_CONCURRENT : Nat := 5

/-- `main.py` line 264: `max_size = 55 * 1024 * 1024` (the adjacent
comment in the source says `# 50MB`, but the value is 55 MiB). -/
def max_size : Nat := 55 * 1024 * 1024

/-- `main.py` lines 37-87: the 49 fixed audit rules. -/
def FIXED_AUDIT_RULES : List String := [
  "1. 整体篇幅对比国自然同类别项目是否合适",
  "2. 全文格式是否规范（字体行距统一/标题序号匹配/空格检查）",
  "3. 全文是否存在低级错误（错别字/缺字漏字）",
  "4. 文中使用的专业术语是否表述正确",
  "5. 文中涉及到的英文表述是否正确",
  "6. 全文是否逻辑清晰，分点分层展示",
  "7. 全文是否附有图文",
  "8. 全文展示的图下方是否有图注作解释说明",
  "9. 全文展示的图是否在正文中有对应标注",
  "10. 全文前后表述是否一致",
  "11. 全文对于第一次出现的专业词汇是否有进行解释",
  "12. 全文是否存在过于口语化的表述",
  "13. 项目名称是否包含研究对象、研究领域、研究类型",
  "14. 项目名称是否与神经或肿瘤药物研发有关（一票否决）",
  "15. 项目名称是否逻辑正确，是否清晰明确",
  "16. 项目名称是否与研究内容吻合",
  "17. 项目摘要是否包含1）研究背景+待解决的问题 2）前期结果+假说+内容 3）研究意义",
  "18. 立项依据是否包含1）课题背景2）研究现状3）当前亟待解决的问题",
  "19. 立项依据是否结合对应文献和前期结果",
  "20. 立项依据部分，引用文献对应的内容是否真实",
  "21. 参考文献是否在30-50篇之间",
  "22. 参考文献是否保持格式统一",
  "23. 参考文献中是否包含近5年的研究，引用近5年研究的数量是否合适",
  "24. 立项依据部分是否有子标题，是否有下划线/加粗等标注突出重点",
  "25. 立项依据是否附有图文",
  "26. 立项依据部分所有文字是否超过4000字",
  "27. 研究内容是否分阶段、分方面展示",
  "28. 研究方案中的样本量是否合理",
  "29. 研究方案中的样本量是否有对应的理论依据",
  "30. 拟采取的研究方案和可行性分析是否分点分节说明",
  "31. 是否有技术路线图",
  "32. 技术路线图是否清晰",
  "33. 研究内容、研究目标以及拟解决的关键科学问题部分所有文字是否超过4000字",
  "34. 项目研究的内容在同领域中，是否已经存在很多已发表的研究成果",
  "35. 项目是否具备转化价值",
  "36. 项目能否解决当下该研究领域内的痛点难点",
  "37. 项目是否有区别于其他同类研究的亮点",
  "38. 项目研究计划是否分时间节点或分阶段展示",
  "39. 项目产出的成果是否可衡量",
  "40. 项目产出的成果是否有含金量",
  "41. 项目是否可以在2年内达到预期成果",
  "42. 申请人及团队的研究领域与课题研究方向是否匹配",
  "43. 申请人及团队所在单位是否具备完成项目所需要的技术条件",
  "44. 申请人团队成员组成是否合理",
  "45. 申请人及团队的分工是否清晰，细化",
  "46. 申请人简介中，申请人发表的文章是否标注影响因子",
  "47. 申请人简介中，申请人发表的文章是否体现本人排序",
  "48. 申请人简介中，申请人发表的文章是否与本项目研究内容相关",
  "49. 项目经费预算中，参照国自然同类项目，申请人填写的是否合理"]

/-! ## Prompt construction (`build_audit_prompt`, lines 141-171) -/

/-- `main.py` line 143. -/
def attitude_rule_indices : List Nat := [2, 3, 4, 5, 8, 9, 10, 11, 12, 14, 22]

/-- One entry of the rule-index enumerations: `f"第{i}条"`. -/
def zhRuleRef (i : Nat) : String := "第" ++ toString i ++ "条"

/-- `main.py` line 145. -/
def attitude_rules_text : String :=
  String.intercalate (", ") (attitude_rule_indices.map zhRuleRef)

/-- `main.py` line 146: indices 1..49 that are not attitude rules. -/
def ability_rules_text : String :=
  String.intercalate (", ")
    ((((List.range 49).map (· + 1)).filter (fun i => ¬ attitude_rule_indices.contains i)).map zhRuleRef)

/-- `main.py` lines 148-171: the audit prompt f-string, with the three
interpolations (`attitude_rules_text`, `ability_rules_text`, the joined
rules) and the trailing insertion of the PDF text. -/
def build_audit_prompt (pdf_text : String) : String :=
  "\n你是一个形式审查员。请根据以下49条规则，对这份PDF内容进行逐条审查。\n\n" ++
  "### 输出要求：\n" ++
  "- 输出为json形式，每条规则对应一项，需要按照1~49顺序输出，禁止乱序；\n" ++
  "- 每项包含三个字段：\"规则内容（需带规则序号）\"、\"评估结果\"、\"理由\"；\n" ++
  "- \"评估结果\"必须为：`符合`、`不符合`；\n" ++
  "- 如为 `不符合`，必须填写简要理由。\n\n" ++
  "### 规则分类说明：\n" ++
  "- **态度类规则**共11条，编号为：" ++ attitude_rules_text ++ "；\n" ++
  "- **能力类规则**共38条，编号为：" ++ ability_rules_text ++ "；\n" ++
  "- 其中**第14条**为“一票否决”，如不合格，必须重点标注；\n" ++
  "- 最后请额外输出一份统计：\n" ++
  "  - \"态度类不合格数量\"（不符合计1分，括号中需要输出不符合的规则序号）；\n" ++
  "  - \"能力类不合格数量\"（不符合计1分，括号中需要输出不符合的规则序号）；\n" ++
  "  - 是否触发第14条一票否决（True/False）。\n\n" ++
  "### 评审规则如下：\n" ++
  String.intercalate ("\n") FIXED_AUDIT_RULES ++
  "\n\nPDF内容如下：\n" ++ pdf_text ++ "\n"

/-! ## Data model: the `audit_items` table (`init_db`, lines 502-518)

`item_id TEXT PRIMARY KEY` makes the table a map keyed by `item_id`; the
store is embedded as an association list kept duplicate-free by the
write operations, mirroring the primary-key constraint. -/

/-- The values the `status` column takes in `main.py` (rows are created
as `processing` and updated to `success` or `error`). -/
inductive Status
  | processing
  | success
  | error
deriving DecidableEq, Repr

/-- One row of `audit_items` apart from its `item_id` key.  `result`
holds the JSON-encoded engine answer; `processing_time` is kept in
abstract time units (the embedding does not model wall-clock arithmetic,
only which writes set the column). -/
structure JobRecord where
  pdf_url : String
  status : Status
  result : Option String
  error_message : Option String
  processing_time : Option Nat
  create_time : String
deriving DecidableEq, Repr

/-- The `audit_items` table: association list keyed by `item_id`. -/
abbrev DB := List (String × JobRecord)

/-- `SELECT ... WHERE item_id = ?` (first matching row). -/
def dbGet (db : DB) (item_id : String) : Option JobRecord :=
  (db.find? (fun p => p.1 == item_id)).map (fun p => p.2)

/-- `INSERT OR REPLACE INTO audit_items ... VALUES (?, ?, ...)`: sqlite
deletes any row with the same primary key and inserts the new row. -/
def dbUpsert (db : DB) (item_id : String) (r : JobRecord) : DB :=
  (db.filter (fun p => !(p.1 == item_id))) ++ [(item_id, r)]

/-- `UPDATE audit_items SET ... WHERE item_id = ?`: rewrites every row
whose key matches (a no-op when the key is absent). -/
def dbUpdate (db : DB) (item_id : String) (f : JobRecord → JobRecord) : DB :=
  db.map (fun p => if p.1 == item_id then (p.1, f p.2) else p)

/-- The primary-key invariant: at most one row per `item_id`. -/
def keysNodup (db : DB) : Prop :=
  (db.map Prod.fst).Nodup

/-! ## `download_pdf` (lines 237-271) -/

/-- The byte payload of an HTTP response, abstracted to what the program
observes of it: its length (`len(response.content)`) and what `PdfReader`
yields on it (a parse error, or the per-page extracted texts). -/
structure PdfBytes where
  size : Nat
  parsed : Except String (List String)

/-- Outcome of `httpx` `client.get(url)` + `raise_for_status()`: either a
raised transport/HTTP-status exception (with its `str(e)` text), or a
response carrying a `content-type` header and a body. -/
inductive Transport
  | netFail (msg : String)
  | ok (contentType : String) (content : PdfBytes)

/-- `download_pdf` (lines 237-271).  Checks the URL scheme, then the
transport outcome, then the content type, then the size bound, raising
`HTTPException(400, f"PDF下载失败：{e}")` on any failure; the embedding
returns `Except.error` carrying `str(exception)`, which Starlette's
`HTTPException.__str__` renders as `"{status_code}: {detail}"`. -/
def download_pdf (url : String) (t : Transport) : Except String PdfBytes :=
  if ¬ (strStartsWith url ("http://") || strStartsWith url ("https://")) then
    Except.error ("400: PDF下载失败：" ++ "无效的URL协议")
  else
    match t with
    | Transport.netFail msg => Except.error ("400: PDF下载失败：" ++ msg)
    | Transport.ok contentType content =>
        let ct := toLowerStr contentType
        if ¬ containsSub ("pdf") ct then
          if containsSub ("text/html") ct then
            Except.error ("400: PDF下载失败：" ++ "URL指向的是一个HTML页面，而不是PDF文件")
          else
            Except.error ("400: PDF下载失败：" ++ "URL指向的文件不是PDF格式 (Content-Type: " ++ ct ++ ")")
        else if content.size > max_size then
          Except.error ("400: PDF下载失败：" ++ "PDF文件过大 (大小: " ++ toString (content.size / 1024) ++
            "KB, 最大允许: " ++ toString (max_size / 1024) ++ "KB)")
        else
          Except.ok content

/-! ## `extract_pdf_text` (lines 174-235) -/

/-- Index just past the end of the first occurrence of `pat` in `s`
(Python `re.search(re.escape(pat), s).end()`), `none` when `pat` does
not occur. -/
def findStopEnd (pat : List Char) : List Char → Option Nat
  | [] => if pat.isEmpty then some 0 else none
  | c :: rest =>
      if pat.isPrefixOf (c :: rest) then some pat.length
      else (findStopEnd pat rest).map (· + 1)

/-- `pat` occurs in `s` starting at position `i` (specification predicate
for `findStopEnd`). -/
def occursAt (pat s : List Char) (i : Nat) : Bool :=
  pat.isPrefixOf (s.drop i)

/-- Lines 224-231: `text_content[:match.end()]` when the marker sentence
occurs, the full text otherwise. -/
def truncateAtSentence (text : String) : String :=
  match findStopEnd SENTENCES.toList text.toList with
  | some e => (text.toList.take e).asString
  | none => text

/-- `extract_pdf_text` (lines 174-235), minus the temp-file bookkeeping
(pure side effect) and the surrogate-pair re-encoding fallback (the
primary UTF-8 branch always succeeds on well-formed unicode text, which
is all a Lean `String` can denote).  Pages are joined with `"\n"`, then
truncated at the marker sentence; a `PdfReader` failure is re-raised as
`HTTPException(400, f"PDF解析失败: {e}")`. -/
def extract_pdf_text (content : PdfBytes) : Except String String :=
  match content.parsed with
  | Except.error e => Except.error ("400: PDF解析失败: " ++ e)
  | Except.ok pages => Except.ok (truncateAtSentence (String.intercalate ("\n") pages))

/-! ## `call_yuanbao` (lines 280-330) -/

/-- What the reasoning engine does on one invocation:
`sdkError` models a raised `TencentCloudSDKException` (transport,
credential or engine-side failure reported by the SDK), `otherError` any
other raised exception, and `reply` a returned response (`none` when
`Choices` is missing or empty). -/
inductive EngineOutcome
  | sdkError (err : String)
  | otherError (msg : String)
  | reply (content : Option String)

/-- `call_yuanbao` (lines 280-330).  Every failure is caught inside the
function and converted into a returned string; the function never raises
toward its caller. -/
def call_yuanbao (_prompt : String) (outcome : EngineOutcome) : String :=
  match outcome with
  | EngineOutcome.sdkError err => "元宝API调用失败: " ++ err
  | EngineOutcome.otherError msg => "元宝调用异常: " ++ msg
  | EngineOutcome.reply none => "无响应内容"
  | EngineOutcome.reply (some content) => content

/-! ## `process_pdf_url` (lines 332-403) -/

/-- The external-world outcomes one pipeline run observes, plus the
elapsed time its terminal write records. -/
structure PipelineEnv where
  transport : Transport
  engine : EngineOutcome
  elapsed : Nat

/-- The dict `process_pdf_url` returns. -/
structure ItemResult where
  item_id : String
  pdf_url : String
  status : Status
  processing_time : Nat
  result : Option String
  error_message : Option String
deriving DecidableEq, Repr

/-- The terminal outcome of one pipeline run, as the triple of columns
`(status, result, error_message)` that its final `UPDATE` writes:
lines 366-370 on success (engine answer JSON-encoded into `result`,
`error_message = NULL`), lines 389-393 on a caught exception
(`result = NULL`, `error_message = str(e)`). -/
def pipelineOutcome (env : PipelineEnv) (url : String) : Status × Option String × Option String :=
  match download_pdf url env.transport with
  | Except.error e => (Status.error, none, some e)
  | Except.ok content =>
      match extract_pdf_text content with
      | Except.error e => (Status.error, none, some e)
      | Except.ok pdf_text =>
          let prompt := build_audit_prompt pdf_text
          let result := call_yuanbao prompt env.engine
          (Status.success, some (json_dumps_str result), none)

/-- The record rewrite performed by the pipeline's terminal `UPDATE`:
it overwrites `status`, `result`, `error_message` and `processing_time`
and leaves `pdf_url` and `create_time` untouched. -/
def terminalUpdate (env : PipelineEnv) (url : String) (r : JobRecord) : JobRecord :=
  { r with status := (pipelineOutcome env url).1,
           result := (pipelineOutcome env url).2.1,
           error_message := (pipelineOutcome env url).2.2,
           processing_time := some env.elapsed }

/-- `process_pdf_url` (lines 332-403): runs the pipeline stages in order
(download → extract → prompt → engine call), then performs exactly one
terminal `UPDATE` on the item's row and returns the result dict.  The
semaphore acquisition wrapping the body is modelled separately by
`LimStep` (it bounds concurrency and does not change the data flow). -/
def process_pdf_url (env : PipelineEnv) (pdf_url : String) (item_id : String) (db : DB) :
    DB × ItemResult :=
  let o := pipelineOutcome env pdf_url
  (dbUpdate db item_id (terminalUpdate env pdf_url),
   { item_id := item_id, pdf_url := pdf_url, status := o.1,
     processing_time := env.elapsed,
     result := (o.2.1).map json_loads_str,
     error_message := o.2.2 })

/-! ## `POST /audit` (`process_audit_request`, lines 439-471) -/

/-- One element of the request body: `class AuditItem(BaseModel)`. -/
structure AuditItem where
  url : String
  id : String
deriving DecidableEq, Repr

/-- A fresh row as written by the submission loop (lines 452-458): only
`item_id`, `pdf_url`, `status='processing'`, `create_time` are given, so
the replaced row's other columns become NULL. -/
def freshRecord (url now : String) : JobRecord :=
  { pdf_url := url, status := Status.processing, result := none,
    error_message := none, processing_time := none, create_time := now }

/-- The submission loop (lines 452-460): one `INSERT OR REPLACE` per
item, in payload order. -/
def insertProcessing (db : DB) (items : List AuditItem) (now : String) : DB :=
  items.foldl (fun d item => dbUpsert d item.id (freshRecord item.url now)) db

/-- `main.py` line 442. -/
def MAX_ITEMS_PER_BATCH : Nat := 5

/-- `[items[i:i+B] for i in range(0, len(items), B)]` (line 464); the
`0` chunk size never occurs (`MAX_ITEMS_PER_BATCH = 5`). -/
def chunkList : Nat → List AuditItem → List (List AuditItem)
  | _, [] => []
  | 0, _ :: _ => []
  | n + 1, x :: xs => (x :: xs).take (n + 1) :: chunkList (n + 1) ((x :: xs).drop (n + 1))
termination_by _ l => l.length
decreasing_by simp [List.length_drop]; omega

/-- The HTTP response of `POST /audit`: either the `HTTPException(400)`
raised for an empty payload, or the JSON body of line 471. -/
inductive PostResponse
  | badRequest (detail : String)
  | ok (status : String) (message : String)
deriving DecidableEq, Repr

/-- What `POST /audit` leaves behind when its handler returns: the HTTP
response, the store contents, and the pipeline tasks it created but has
not yet run (one task per item occurrence, grouped into chunks of
`MAX_ITEMS_PER_BATCH`; `asyncio.create_task` only schedules them, and the
handler returns without awaiting any). -/
structure PostResult where
  response : PostResponse
  db : DB
  scheduled : List (List AuditItem)
deriving DecidableEq, Repr

/-- The success body of line 471. -/
def postOkMessage : String := "审查任务已创建，可以通过GET /audit/\x7bitem_id\x7d查询状态"

/-- `process_audit_request` (lines 439-471): reject an empty payload
with 400; otherwise write a `processing` row for every item, then create
the pipeline tasks and return immediately. -/
def process_audit_request (db : DB) (items : List AuditItem) (now : String) : PostResult :=
  if items = [] then
    { response := PostResponse.badRequest ("No items provided"), db := db, scheduled := [] }
  else
    { response := PostResponse.ok ("success") postOkMessage,
      db := insertProcessing db items now,
      scheduled := chunkList MAX_ITEMS_PER_BATCH items }

/-! ## `GET /audit/{item_id}` (`get_item_result`, lines 473-500) -/

/-- The JSON body returned by `GET /audit/{item_id}`. -/
inductive GetResponse
  | record (item_id : String) (pdf_url : String) (status : Status)
      (result : Option String) (error_message : Option String)
      (processing_time : Option Nat) (create_time : String)
  | failureShape (item_id : String) (status : String)
deriving DecidableEq, Repr

/-- Line 496: `json.loads(result) if result and status == "success" else
None` (`result` truthy means present and non-empty). -/
def resultField (r : JobRecord) : Option String :=
  match r.result with
  | some s => if r.status = Status.success ∧ s ≠ "" then some (json_loads_str s) else none
  | none => none

/-- `get_item_result` (lines 473-500): a single lookup; an absent row
yields the `{item_id, status: "failure"}` shape (returned normally, not
raised). -/
def get_item_result (db : DB) (item_id : String) : GetResponse :=
  match dbGet db item_id with
  | none => GetResponse.failureShape item_id ("failure")
  | some r =>
      GetResponse.record item_id r.pdf_url r.status (resultField r)
        r.error_message r.processing_time r.create_time

/-- The static descriptor of `GET /audit` (lines 414-423); its `usage`
text documents a 50-address ceiling for `POST /audit`. -/
structure AuditInfo where
  status : String
  message : String
  version : String
  endpoint : String
  supported_methods : List String
  usage : String
deriving DecidableEq, Repr

/-- `get_audit_info` (lines 414-423). -/
def get_audit_info : AuditInfo :=
  { status := "success", message := "PDF审查API正常运行", version := "1.0.0",
    endpoint := "/audit", supported_methods := ["GET", "POST"],
    usage := "POST请求需传入urls列表进行pdf审查，最多地址数量为50，最大并发为5" }

/-! ## Interleaving model for submissions and pipeline completions

The handler creates pipeline tasks without awaiting them, tasks of
distinct (or resubmitted) items run concurrently, and nothing cancels a
task already in flight.  What reaches the shared store is a sequence of
atomic sqlite writes: the submission loop's upserts and each pipeline's
single terminal `UPDATE`.  A system trace is therefore a list of these
operations; `runTask i` runs the `i`-th still-pending pipeline task to
its terminal write (the internal stages touch no shared state, so only
the order of terminal writes matters to the store). -/

/-- One pipeline task created by `asyncio.create_task(process_pdf_url(...))`,
together with the external-world outcomes its run will observe. -/
structure PipelineTask where
  item_id : String
  url : String
  env : PipelineEnv

/-- Shared state: the store plus the created-but-unfinished tasks. -/
structure SysState where
  db : DB
  tasks : List PipelineTask

/-- Events of a system trace: a `POST /audit` submission (with the
outcomes its tasks will observe), or the completion of a pending task. -/
inductive SysOp
  | post (items : List AuditItem) (envs : List PipelineEnv) (now : String)
  | runTask (i : Nat)

/-- Effect of one event on the shared state. -/
def sysStep (s : SysState) : SysOp → SysState
  | SysOp.post items envs now =>
      if items = [] then s
      else
        { db := insertProcessing s.db items now,
          tasks := s.tasks ++ (items.zip envs).map
            (fun p => { item_id := p.1.id, url := p.1.url, env := p.2 }) }
  | SysOp.runTask i =>
      match s.tasks.get? i with
      | none => s
      | some t =>
          { db := (process_pdf_url t.env t.url t.item_id s.db).1,
            tasks := s.tasks.eraseIdx i }

/-- The state before any request: empty table, no tasks. -/
def sysInit : SysState := { db := [], tasks := [] }

/-- A whole trace. -/
def sysRun (s : SysState) (ops : List SysOp) : SysState :=
  ops.foldl sysStep s

/-- The URL recorded for `item_id` by a submission: the last occurrence
wins, because the insert loop runs in payload order. -/
def lastUrl (items : List AuditItem) (id : String) : Option String :=
  ((items.reverse).find? (fun i => i.id == id)).map (fun i => i.url)

/-! ## The concurrency limiter (lines 32-34 and 339)

`semaphore = asyncio.Semaphore(MAX_CONCURRENT)` is module-level state
created once per process; `process_pdf_url` holds one permit for its
whole body (`async with semaphore:` wraps download, extraction, prompt
building, the engine call and the terminal write), so every pipeline of
every batch contends for this one counter.  The counter's semantics:
`acquire` consumes a permit (suspending — hence not stepping — when none
is free) as a pipeline enters its body; leaving the `async with` block
returns the permit. -/

/-- Limiter state: free permits and pipelines currently inside the
semaphore-guarded body. -/
structure LimState where
  available : Nat
  active : Nat
deriving DecidableEq, Repr

/-- The freshly created `asyncio.Semaphore(MAX_CONCURRENT)`. -/
def limInit : LimState := { available := MAX_CONCURRENT, active := 0 }

/-- Transitions of the process-wide semaphore: a pipeline may enter only
when a permit is free, and a pipeline that leaves returns its permit. -/
inductive LimStep : LimState → LimState → Prop
  | acquire (s : LimState) (h : 0 < s.available) :
      LimStep s { available := s.available - 1, active := s.active + 1 }
  | release (s : LimState) (h : 0 < s.active) :
      LimStep s { available := s.available + 1, active := s.active - 1 }

/-- States the semaphore can be in during a process lifetime. -/
inductive LimReach : LimState → Prop
  | init : LimReach limInit
  | step {s s2 : LimState} : LimReach s → LimStep s s2 → LimReach s2

/-! ## Concrete inputs used by counterexamples and witnesses -/

/-- A fixed submission timestamp. -/
def now0 : String := "2026-01-01 00:00:00"

/-- A transport that succeeds with a PDF content type and a document
whose pages parse to the given texts. -/
def okTransport (pages : List String) (size : Nat) : Transport :=
  Transport.ok ("application/pdf") { size := size, parsed := Except.ok pages }

/-- A pipeline run in which download and extraction succeed but the
engine call raises `TencentCloudSDKException` (e.g. a credential
failure). -/
def engineFailEnv : PipelineEnv :=
  { transport := okTransport ["正文内容"] 1000,
    engine := EngineOutcome.sdkError ("AuthFailure.SecretIdNotFound"), elapsed := 4 }

/-- A one-row store holding a freshly submitted item. -/
def db1 : DB := [("item-1", freshRecord ("http://example.com/a.pdf") now0)]

/-- A 51-item payload (one more than the ceiling the spec and the
`GET /audit` usage text state). -/
def items51 : List AuditItem :=
  (List.range 51).map (fun i =>
    { url := "http://example.com/doc" ++ toString i ++ ".pdf", id := "item" ++ toString i })

/-- A one-row store for the oversized-payload scenario. -/
def db3 : DB := [("item-3", freshRecord ("http://example.com/big.pdf") now0)]

/-- A resolution outcome of 50 MiB + 1 byte (strictly above the spec's
50 MiB ceiling) that parses fine, with a normal engine answer. -/
def oversize50Env : PipelineEnv :=
  { transport := okTransport ["正文内容"] (50 * 1024 * 1024 + 1),
    engine := EngineOutcome.reply (some ("审查结果JSON")), elapsed := 9 }

/-- The same scenario with a 56 MiB payload, above the code's actual
55 MiB bound. -/
def oversize56Env : PipelineEnv :=
  { transport := okTransport ["正文内容"] (56 * 1024 * 1024),
    engine := EngineOutcome.reply (some ("审查结果JSON")), elapsed := 9 }

/-- First submission's pipeline for the resubmission race: slow, answers
`R1`. -/
def envA : PipelineEnv :=
  { transport := okTransport ["第一次提交的文档"] 100,
    engine := EngineOutcome.reply (some ("R1")), elapsed := 50 }

/-- Second submission's pipeline: fast, answers `R2`. -/
def envB : PipelineEnv :=
  { transport := okTransport ["第二次提交的文档"] 100,
    engine := EngineOutcome.reply (some ("R2")), elapsed := 2 }

/-- Two submissions of the same `item_id` where the second submission's
pipeline finishes first and the first submission's (never cancelled)
pipeline finishes last.  Realizable: task completion order depends only
on external latency. -/
def resubTrace : List SysOp :=
  [SysOp.post [{ url := "http://example.com/v1.pdf", id := "dup" }] [envA] now0,
   SysOp.post [{ url := "http://example.com/v2.pdf", id := "dup" }] [envB] ("2026-01-01 00:00:05"),
   SysOp.runTask 1,
   SysOp.runTask 0]

/-- A two-item payload for the `POST /audit` registration witness. -/
def items2 : List AuditItem :=
  [{ url := "http://example.com/x.pdf", id := "item-x" },
   { url := "http://example.com/y.pdf", id := "item-y" }]

/-- Pages whose joined text contains the marker sentence with material
before and after it. -/
def pagesMarked : List String :=
  ["起始部分对其他来源资金的经费来源、资金具体开支用途做简要说明。之后的内容不再评估"]

/-- The byte payload that parses to `pagesMarked`. -/
def contentMarked : PdfBytes := { size := 2048, parsed := Except.ok pagesMarked }

/-- A success row for the `GET /audit/{item_id}` witness. -/
def recW : JobRecord :=
  { pdf_url := "http://example.com/w.pdf", status := Status.success,
    result := some (json_dumps_str ("审查通过")), error_message := none,
    processing_time := some 12, create_time := now0 }

/-- A one-row store for the `GET /audit/{item_id}` witness. -/
def db8 : DB := [("item-w", recW)]

/-! ## Store lemmas -/

theorem find?_filter_of_imp {α : Type} (q pred : α → Bool)
    (h : ∀ x, q x = true → pred x = true) :
    ∀ l : List α, (l.filter pred).find? q = l.find? q := by
  intro l
  induction l with
  | nil => rfl
  | cons x xs ih =>
      by_cases hp : pred x = true
      · by_cases hq : q x = true
        · simp [List.filter_cons, hp, List.find?_cons_of_pos, hq]
        · have hq2 : q x = false := by simpa using hq
          simp [List.filter_cons, hp, List.find?_cons_of_neg, hq2, ih]
      · have hp2 : pred x = false := by simpa using hp
        have hq2 : q x = false := by
          by_cases hqx : q x = true
          · exact absurd (h x hqx) hp
          · simpa using hqx
        simp [List.filter_cons, hp2, List.find?_cons_of_neg, hq2, ih]

theorem dbGet_dbUpsert_self (db : DB) (k : String) (r : JobRecord) :
    dbGet (dbUpsert db k r) k = some r := by
  unfold dbGet dbUpsert
  rw [List.find?_append]
  have h1 : (db.filter (fun p => !(p.1 == k))).find? (fun p => p.1 == k) = none := by
    rw [List.find?_eq_none]
    intro x hx
    have hmem := List.of_mem_filter hx
    simp at hmem
    simp [hmem]
  simp [h1, List.find?]

theorem dbGet_dbUpsert_ne (db : DB) (k k' : String) (r : JobRecord) (h : k' ≠ k) :
    dbGet (dbUpsert db k r) k' = dbGet db k' := by
  unfold dbGet dbUpsert
  rw [List.find?_append]
  have himp : ∀ p : String × JobRecord, (p.1 == k') = true → (!(p.1 == k)) = true := by
    intro p hp
    have h1 : p.1 = k' := by simpa using hp
    have h2 : (p.1 == k) = false := by
      apply beq_eq_false_iff_ne.mpr
      rw [h1]
      exact h
    simp [h2]
  rw [@find?_filter_of_imp (String × JobRecord) (fun p => p.1 == k')
    (fun p => !(p.1 == k)) himp db]
  have h2 : ([(k, r)].find? (fun p => p.1 == k')) = none := by
    have hkk : (k == k') = false := beq_eq_false_iff_ne.mpr (fun he => h he.symm)
    simp [List.find?, hkk]
  rw [h2, Option.or_none]

theorem dbGet_dbUpdate_self (db : DB) (k : String) (f : JobRecord → JobRecord) :
    dbGet (dbUpdate db k f) k = (dbGet db k).map f := by
  induction db with
  | nil => rfl
  | cons p ps ih =>
      simp only [dbGet, dbUpdate, List.map_cons] at ih ⊢
      cases hp : (p.1 == k) with
      | true =>
          rw [if_pos rfl]
          rw [List.find?_cons, List.find?_cons]
          simp only [hp]
          rfl
      | false =>
          rw [if_neg Bool.false_ne_true]
          rw [List.find?_cons, List.find?_cons]
          simp only [hp]
          exact ih

theorem dbGet_dbUpdate_ne (db : DB) (k k' : String) (f : JobRecord → JobRecord)
    (h : k' ≠ k) :
    dbGet (dbUpdate db k f) k' = dbGet db k' := by
  induction db with
  | nil => rfl
  | cons p ps ih =>
      simp only [dbGet, dbUpdate, List.map_cons] at ih ⊢
      cases hp : (p.1 == k) with
      | true =>
          have hpk : p.1 = k := by simpa using hp
          have hne : (p.1 == k') = false := by
            apply beq_eq_false_iff_ne.mpr
            rw [hpk]
            exact fun he => h he.symm
          rw [if_pos rfl]
          rw [List.find?_cons, List.find?_cons]
          simp only [hne]
          exact ih
      | false =>
          rw [if_neg Bool.false_ne_true]
          rw [List.find?_cons, List.find?_cons]
          cases hq : (p.1 == k') with
          | true => rfl
          | false => exact ih

theorem keys_dbUpdate (db : DB) (k : String) (f : JobRecord → JobRecord) :
    (dbUpdate db k f).map Prod.fst = db.map Prod.fst := by
  induction db with
  | nil => rfl
  | cons p ps ih =>
      simp only [dbUpdate, List.map_cons] at ih ⊢
      cases hp : (p.1 == k) with
      | true => rw [if_pos rfl]; rw [ih]
      | false => rw [if_neg Bool.false_ne_true]; rw [ih]

theorem keysNodup_dbUpdate (db : DB) (k : String) (f : JobRecord → JobRecord)
    (h : keysNodup db) : keysNodup (dbUpdate db k f) := by
  unfold keysNodup
  rw [keys_dbUpdate]
  exact h

theorem keysNodup_dbUpsert (db : DB) (k : String) (r : JobRecord)
    (h : keysNodup db) : keysNodup (dbUpsert db k r) := by
  unfold keysNodup dbUpsert
  rw [List.map_append, List.nodup_append]
  refine ⟨?_, by simp, ?_⟩
  · exact ((List.filter_sublist db).map Prod.fst).nodup h
  · intro a ha hb
    simp at hb
    obtain ⟨p, hp, hpa⟩ := List.mem_map.mp ha
    have hf := List.of_mem_filter hp
    rw [hb] at hpa
    simp at hf
    exact hf hpa

theorem keysNodup_insertProcessing (items : List AuditItem) :
    ∀ (db : DB) (now : String), keysNodup db → keysNodup (insertProcessing db items now) := by
  induction items with
  | nil => intro db now h; exact h
  | cons x xs ih =>
      intro db now h
      exact ih _ now (keysNodup_dbUpsert db x.id _ h)

theorem insertProcessing_get (items : List AuditItem) :
    ∀ (db : DB) (now id : String),
      dbGet (insertProcessing db items now) id =
        match lastUrl items id with
        | some u => some (freshRecord u now)
        | none => dbGet db id := by
  induction items with
  | nil => intro db now id; simp [insertProcessing, lastUrl]
  | cons x xs ih =>
      intro db now id
      have step : insertProcessing db (x :: xs) now
          = insertProcessing (dbUpsert db x.id (freshRecord x.url now)) xs now := rfl
      rw [step, ih]
      have hrev : (x :: xs).reverse = xs.reverse ++ [x] := by simp
      cases hfind : (xs.reverse.find? (fun i => i.id == id)) with
      | some v =>
          have h1 : lastUrl xs id = some v.url := by
            unfold lastUrl; rw [hfind]; rfl
          have h2 : lastUrl (x :: xs) id = some v.url := by
            unfold lastUrl
            rw [hrev, List.find?_append, hfind]
            rfl
          rw [h1, h2]
      | none =>
          have h1 : lastUrl xs id = none := by
            unfold lastUrl; rw [hfind]; rfl
          rw [h1]
          by_cases hx : (x.id == id) = true
          · have hxi : x.id = id := by simpa using hx
            have h2 : lastUrl (x :: xs) id = some x.url := by
              unfold lastUrl
              rw [hrev, List.find?_append, hfind]
              simp [List.find?, hx]
            rw [h2]
            subst hxi
            exact dbGet_dbUpsert_self db x.id (freshRecord x.url now)
          · have hx2 : (x.id == id) = false := by simpa using hx
            have h2 : lastUrl (x :: xs) id = none := by
              unfold lastUrl
              rw [hrev, List.find?_append, hfind]
              simp [List.find?, hx2]
            rw [h2]
            exact dbGet_dbUpsert_ne db x.id id (freshRecord x.url now)
              (by intro he; rw [he] at hx2; simp at hx2)


/-! ## Truncation lemmas: `findStopEnd` finds the first occurrence -/

theorem findStopEnd_some (pat : List Char) :
    ∀ (s : List Char) (e : Nat), findStopEnd pat s = some e →
      pat.length ≤ e ∧ occursAt pat s (e - pat.length) = true ∧
        ∀ j, occursAt pat s j = true → e - pat.length ≤ j := by
  intro s
  induction s with
  | nil =>
      intro e h
      simp only [findStopEnd] at h
      cases hp : pat.isEmpty with
      | true =>
          rw [hp] at h
          simp at h
          have hpat : pat = [] := List.isEmpty_iff.mp hp
          subst hpat
          subst h
          refine ⟨by simp, by simp [occursAt, List.isPrefixOf], ?_⟩
          intro j _
          simp
      | false => rw [hp] at h; simp at h
  | cons c rest ih =>
      intro e h
      simp only [findStopEnd] at h
      cases hp : pat.isPrefixOf (c :: rest) with
      | true =>
          rw [hp] at h
          simp at h
          subst h
          refine ⟨le_refl _, ?_, ?_⟩
          · simpa [occursAt] using hp
          · intro j _; omega
      | false =>
          rw [hp] at h
          simp only [if_neg (by simp : ¬ (false = true))] at h
          cases hr : findStopEnd pat rest with
          | none => rw [hr] at h; simp at h
          | some e2 =>
              rw [hr] at h
              simp at h
              obtain ⟨hle, hocc, hmin⟩ := ih e2 hr
              subst h
              refine ⟨by omega, ?_, ?_⟩
              · have hshift : e2 + 1 - pat.length = (e2 - pat.length) + 1 := by omega
                rw [hshift]
                simpa [occursAt, List.drop_succ_cons] using hocc
              · intro j hj
                cases j with
                | zero =>
                    exfalso
                    have : pat.isPrefixOf (c :: rest) = true := by
                      simpa [occursAt] using hj
                    rw [hp] at this
                    simp at this
                | succ j2 =>
                    have := hmin j2 (by simpa [occursAt, List.drop_succ_cons] using hj)
                    omega

theorem findStopEnd_none (pat : List Char) :
    ∀ (s : List Char), findStopEnd pat s = none →
      ∀ j, occursAt pat s j = false := by
  intro s
  induction s with
  | nil =>
      intro h j
      simp only [findStopEnd] at h
      cases hp : pat.isEmpty with
      | true => rw [hp] at h; simp at h
      | false =>
          cases pat with
          | nil => simp at hp
          | cons a as => simp [occursAt, List.isPrefixOf]
  | cons c rest ih =>
      intro h j
      simp only [findStopEnd] at h
      cases hp : pat.isPrefixOf (c :: rest) with
      | true => rw [hp] at h; simp at h
      | false =>
          rw [hp] at h
          simp only [if_neg (by simp : ¬ (false = true))] at h
          cases hr : findStopEnd pat rest with
          | some e2 => rw [hr] at h; simp at h
          | none =>
              cases j with
              | zero => simpa [occursAt] using hp
              | succ j2 => simpa [occursAt, List.drop_succ_cons] using ih hr j2

/-! ## Pipeline and orchestration lemmas -/

theorem pipelineOutcome_shape (env : PipelineEnv) (url : String) :
    (∃ s, pipelineOutcome env url = (Status.success, some s, none)) ∨
    (∃ m, pipelineOutcome env url = (Status.error, none, some m)) := by
  cases hdl : download_pdf url env.transport with
  | error e =>
      right
      refine ⟨e, ?_⟩
      unfold pipelineOutcome
      rw [hdl]
  | ok content =>
      have hred : pipelineOutcome env url =
          (match extract_pdf_text content with
           | Except.error e => (Status.error, none, some e)
           | Except.ok pdf_text =>
               (Status.success,
                some (json_dumps_str (call_yuanbao (build_audit_prompt pdf_text) env.engine)),
                none)) := by
        unfold pipelineOutcome
        rw [hdl]
      cases hex : extract_pdf_text content with
      | error e =>
          right
          refine ⟨e, ?_⟩
          rw [hred, hex]
      | ok t =>
          left
          refine ⟨json_dumps_str (call_yuanbao (build_audit_prompt t) env.engine), ?_⟩
          rw [hred, hex]

theorem terminalUpdate_overwrite (e1 e2 : PipelineEnv) (u1 u2 : String) (r : JobRecord) :
    terminalUpdate e2 u2 (terminalUpdate e1 u1 r) = terminalUpdate e2 u2 r := by
  unfold terminalUpdate
  generalize pipelineOutcome e2 u2 = o2
  generalize pipelineOutcome e1 u1 = o1
  rfl

theorem chunkList_flatten : ∀ (n : Nat) (l : List AuditItem),
    (chunkList (n + 1) l).flatten = l
  | _, [] => by simp [chunkList]
  | n, x :: xs => by
      rw [chunkList]
      rw [List.flatten_cons]
      rw [chunkList_flatten n ((x :: xs).drop (n + 1))]
      exact List.take_append_drop (n + 1) (x :: xs)
termination_by _ l => l.length
decreasing_by simp [List.length_drop]; omega

theorem dbGet_of_mem (id : String) (r : JobRecord) :
    ∀ db : DB, keysNodup db → (id, r) ∈ db → dbGet db id = some r := by
  intro db
  induction db with
  | nil => intro _ hmem; cases hmem
  | cons p ps ih =>
      intro hnd hmem
      have hnd2 := hnd
      unfold keysNodup at hnd2
      rw [List.map_cons] at hnd2
      obtain ⟨hfst, hndtail⟩ := List.nodup_cons.mp hnd2
      rcases List.mem_cons.mp hmem with heq | htail
      · rw [← heq]
        simp [dbGet, List.find?_cons]
      · have hk : (p.1 == id) = false := by
          apply beq_eq_false_iff_ne.mpr
          intro he
          apply hfst
          rw [he]
          exact List.mem_map.mpr ⟨(id, r), htail, rfl⟩
        unfold dbGet
        rw [List.find?_cons]
        rw [hk]
        exact ih hndtail htail

theorem dbGet_eq_none (db : DB) (id : String) (h : id ∉ db.map Prod.fst) :
    dbGet db id = none := by
  unfold dbGet
  have hnone : db.find? (fun p => p.1 == id) = none := by
    rw [List.find?_eq_none]
    intro p hp hbeq
    exact h (List.mem_map.mpr ⟨p, hp, (by simpa using hbeq)⟩)
  rw [hnone]
  rfl

theorem keysNodup_sysStep (s : SysState) (op : SysOp) (h : keysNodup s.db) :
    keysNodup (sysStep s op).db := by
  cases op with
  | post items envs now =>
      by_cases hi : items = []
      · rw [sysStep, if_pos hi]
        exact h
      · rw [sysStep, if_neg hi]
        exact keysNodup_insertProcessing items s.db now h
  | runTask i =>
      rw [sysStep]
      cases ht : s.tasks.get? i with
      | none => exact h
      | some t =>
          simp only [process_pdf_url]
          exact keysNodup_dbUpdate _ _ _ h

theorem keysNodup_sysRun (ops : List SysOp) :
    ∀ s : SysState, keysNodup s.db → keysNodup (sysRun s ops).db := by
  induction ops with
  | nil => intro s h; exact h
  | cons op rest ih => intro s h; exact ih _ (keysNodup_sysStep s op h)

/-! ## Claim theorems -/

set_option maxHeartbeats 1000000

/-- C1, counterexample to the claim as stated: with a successful download
and extraction but a `TencentCloudSDKException` from the engine, the
item's row ends in status `success` (with the failure text JSON-encoded
into `result` and `error_message` NULL), not in `error` as the claim
requires. -/
theorem C1_counterexample :
    dbGet (process_pdf_url engineFailEnv ("http://example.com/a.pdf") ("item-1") db1).1
        ("item-1") =
      some { pdf_url := "http://example.com/a.pdf", status := Status.success,
             result := some (json_dumps_str ("元宝API调用失败: AuthFailure.SecretIdNotFound")),
             error_message := none, processing_time := some 4, create_time := now0 } := by
  decide

/-- C1 (amended): whenever the reasoning-engine call fails (SDK/transport
or any other engine-side exception), `call_yuanbao` catches the failure
and returns a string describing it instead of raising, and the item's
JobRecord then ends in the terminal `success` state with that failure
string JSON-encoded as `result` and `error_message` NULL — not in
`error`. -/
theorem C1_engine_failure_stored_as_success
    (env : PipelineEnv) (url item_id : String) (db : DB)
    (content : PdfBytes) (pages : List String) (failText : String)
    (hdl : download_pdf url env.transport = Except.ok content)
    (hparse : content.parsed = Except.ok pages)
    (hfail : (∃ e, env.engine = EngineOutcome.sdkError e ∧
                failText = "元宝API调用失败: " ++ e) ∨
             (∃ m, env.engine = EngineOutcome.otherError m ∧
                failText = "元宝调用异常: " ++ m))
    (hrec : (dbGet db item_id).isSome = true) :
    (∀ prompt, call_yuanbao prompt env.engine = failText) ∧
    ∃ r, dbGet (process_pdf_url env url item_id db).1 item_id = some r ∧
      r.status = Status.success ∧
      r.result = some (json_dumps_str failText) ∧
      r.error_message = none := by
  have hcall : ∀ prompt, call_yuanbao prompt env.engine = failText := by
    rcases hfail with ⟨e, he, hf⟩ | ⟨m, hm, hf⟩
    · intro prompt; rw [he, hf]; rfl
    · intro prompt; rw [hm, hf]; rfl
  refine ⟨hcall, ?_⟩
  have hex : extract_pdf_text content =
      Except.ok (truncateAtSentence (String.intercalate ("\n") pages)) := by
    unfold extract_pdf_text
    rw [hparse]
  have hout : pipelineOutcome env url =
      (Status.success, some (json_dumps_str failText), none) := by
    unfold pipelineOutcome
    rw [hdl]
    show (match extract_pdf_text content with
          | Except.error e => (Status.error, none, some e)
          | Except.ok pdf_text =>
              (Status.success,
               some (json_dumps_str (call_yuanbao (build_audit_prompt pdf_text) env.engine)),
               none))
        = (Status.success, some (json_dumps_str failText), none)
    rw [hex]
    show (Status.success,
          some (json_dumps_str (call_yuanbao
            (build_audit_prompt (truncateAtSentence (String.intercalate ("\n") pages)))
            env.engine)),
          none)
        = (Status.success, some (json_dumps_str failText), none)
    rw [hcall]
  obtain ⟨r0, hr0⟩ := Option.isSome_iff_exists.mp hrec
  refine ⟨terminalUpdate env url r0, ?_, ?_, ?_, ?_⟩
  · show dbGet (dbUpdate db item_id (terminalUpdate env url)) item_id = _
    rw [dbGet_dbUpdate_self, hr0]
    rfl
  · simp [terminalUpdate, hout]
  · simp [terminalUpdate, hout]
  · simp [terminalUpdate, hout]

/-- C1 witness: the amended theorem applied to a concrete credential
failure. -/
theorem C1_witness :
    (∀ prompt, call_yuanbao prompt engineFailEnv.engine =
        "元宝API调用失败: " ++ "AuthFailure.SecretIdNotFound") ∧
    ∃ r, dbGet (process_pdf_url engineFailEnv ("http://example.com/a.pdf") ("item-1") db1).1
        ("item-1") = some r ∧
      r.status = Status.success ∧
      r.result = some (json_dumps_str ("元宝API调用失败: " ++ "AuthFailure.SecretIdNotFound")) ∧
      r.error_message = none :=
  C1_engine_failure_stored_as_success engineFailEnv ("http://example.com/a.pdf") ("item-1") db1
    { size := 1000, parsed := Except.ok ["正文内容"] } ["正文内容"]
    ("元宝API调用失败: " ++ "AuthFailure.SecretIdNotFound")
    rfl rfl (Or.inl ⟨"AuthFailure.SecretIdNotFound", rfl, rfl⟩) (by decide)

/-- C2, code evaluated at the failing input: a 51-item payload is not
rejected — `POST /audit` answers `success` and creates 51 `processing`
rows — although the service's own `GET /audit` usage text documents a
50-address ceiling (and the spec requires a 400-class rejection with
zero records). -/
theorem C2_ceiling_not_enforced :
    (process_audit_request [] items51 now0).response
        = PostResponse.ok ("success") postOkMessage ∧
    (process_audit_request [] items51 now0).db.length = 51 ∧
    (items51.all (fun i =>
        ((dbGet (process_audit_request [] items51 now0).db i.id).map
          (fun r => r.status == Status.processing)).getD false)) = true ∧
    containsSub ("最多地址数量为50") get_audit_info.usage = true := by
  refine ⟨rfl, by decide, by decide, by decide⟩

/-- C3, code evaluated at the failing input: a payload of 50 MiB + 1 byte
(strictly above the claimed 50 MiB bound) sails through the size check —
the pipeline reaches the reasoning stage and the row ends in `success`
with the engine's answer; only payloads above 55 MiB (here 56 MiB) hit
the size error, whose message reports the sizes. -/
theorem C3_threshold_is_55MiB :
    dbGet (process_pdf_url oversize50Env ("http://example.com/big.pdf") ("item-3") db3).1
        ("item-3") =
      some { pdf_url := "http://example.com/big.pdf", status := Status.success,
             result := some (json_dumps_str ("审查结果JSON")), error_message := none,
             processing_time := some 9, create_time := now0 } ∧
    dbGet (process_pdf_url oversize56Env ("http://example.com/big.pdf") ("item-3") db3).1
        ("item-3") =
      some { pdf_url := "http://example.com/big.pdf", status := Status.error,
             result := none,
             error_message := some ("400: PDF下载失败：PDF文件过大 (大小: 57344KB, 最大允许: 56320KB)"),
             processing_time := some 9, create_time := now0 } := by
  refine ⟨by decide, by decide⟩

/-- C4: for every accepted (non-empty) batch, when `POST /audit` returns
it answers `success`, every submitted `item_id` already has a row in
state `processing` with no terminal fields set, and the pipeline tasks
are merely scheduled (one per submitted occurrence, none yet run — the
store contents are exactly what the submission loop wrote). -/
theorem C4_processing_rows_before_pipelines
    (db : DB) (items : List AuditItem) (now : String) (hne : items ≠ []) :
    (process_audit_request db items now).response
        = PostResponse.ok ("success") postOkMessage ∧
    (process_audit_request db items now).scheduled.flatten = items ∧
    ∀ item ∈ items, ∃ r, dbGet (process_audit_request db items now).db item.id = some r ∧
      r.status = Status.processing ∧ r.result = none ∧ r.error_message = none ∧
      r.create_time = now := by
  unfold process_audit_request
  rw [if_neg hne]
  refine ⟨rfl, chunkList_flatten 4 items, ?_⟩
  intro item hmem
  have hsome : (lastUrl items item.id).isSome = true := by
    unfold lastUrl
    have hfs : (items.reverse.find? (fun i => i.id == item.id)).isSome = true :=
      List.find?_isSome.mpr ⟨item, List.mem_reverse.mpr hmem, by simp⟩
    cases hfind : items.reverse.find? (fun i => i.id == item.id) with
    | none => rw [hfind] at hfs; simp at hfs
    | some v => rfl
  obtain ⟨u, hu⟩ := Option.isSome_iff_exists.mp hsome
  refine ⟨freshRecord u now, ?_, rfl, rfl, rfl, rfl⟩
  rw [insertProcessing_get items db now item.id, hu]

/-- C4 witness: the theorem applied to a concrete two-item batch. -/
theorem C4_witness :
    (process_audit_request [] items2 now0).response
        = PostResponse.ok ("success") postOkMessage ∧
    (process_audit_request [] items2 now0).scheduled.flatten = items2 ∧
    ∀ item ∈ items2, ∃ r, dbGet (process_audit_request [] items2 now0).db item.id = some r ∧
      r.status = Status.processing ∧ r.result = none ∧ r.error_message = none ∧
      r.create_time = now0 :=
  C4_processing_rows_before_pipelines [] items2 now0 (by decide)

/-- C5: when a pipeline task finishes on an item whose row exists,
exactly one terminal transition has happened: the row's status is
`success` (with `result` set and `error_message` NULL) xor `error` (with
`error_message` set and `result` NULL), and never remains `processing`. -/
theorem C5_exactly_one_terminal_transition
    (env : PipelineEnv) (url item_id : String) (db : DB)
    (hrec : (dbGet db item_id).isSome = true) :
    ∃ r, dbGet (process_pdf_url env url item_id db).1 item_id = some r ∧
      r.status ≠ Status.processing ∧
      Xor' (r.status = Status.success ∧ r.result.isSome = true ∧ r.error_message = none)
           (r.status = Status.error ∧ r.error_message.isSome = true ∧ r.result = none) := by
  obtain ⟨r0, hr0⟩ := Option.isSome_iff_exists.mp hrec
  refine ⟨terminalUpdate env url r0, ?_, ?_, ?_⟩
  · show dbGet (dbUpdate db item_id (terminalUpdate env url)) item_id = _
    rw [dbGet_dbUpdate_self, hr0]
    rfl
  · rcases pipelineOutcome_shape env url with ⟨s, hsh⟩ | ⟨m, hsh⟩ <;>
      simp [terminalUpdate, hsh]
  · rcases pipelineOutcome_shape env url with ⟨s, hsh⟩ | ⟨m, hsh⟩ <;>
      simp [Xor', terminalUpdate, hsh]

/-- C5 witness: the theorem applied to a concrete run (engine failure
path, which still ends in exactly one terminal state). -/
theorem C5_witness :
    ∃ r, dbGet (process_pdf_url engineFailEnv ("http://example.com/a.pdf") ("item-1") db1).1
        ("item-1") = some r ∧
      r.status ≠ Status.processing ∧
      Xor' (r.status = Status.success ∧ r.result.isSome = true ∧ r.error_message = none)
           (r.status = Status.error ∧ r.error_message.isSome = true ∧ r.result = none) :=
  C5_exactly_one_terminal_transition engineFailEnv ("http://example.com/a.pdf") ("item-1") db1
    (by decide)

/-- C6, counterexample to "the final record reflects only the later
submission's outcome": the same `item_id` is submitted twice; nothing
cancels the first submission's pipeline, whose terminal write lands
last, so the final row carries the first submission's engine answer
(`R1`), not the later submission's (`R2`). -/
theorem C6_counterexample :
    dbGet (sysRun sysInit resubTrace).db ("dup") =
      some { pdf_url := "http://example.com/v2.pdf", status := Status.success,
             result := some (json_dumps_str ("R1")), error_message := none,
             processing_time := some 50, create_time := "2026-01-01 00:00:05" } ∧
    json_dumps_str ("R1") ≠ json_dumps_str ("R2") := by
  refine ⟨by decide, by decide⟩

/-- C6 (amended): the store holds at most one row per `item_id` in every
reachable state, and a resubmission containing an `item_id` replaces its
prior row with a whole fresh `processing` row (no merge); the terminal
writes of all still-in-flight pipelines for that id then race, each
rewriting the whole row, so the final row is the last writer's — which
may belong to either submission. -/
theorem C6_one_row_reset_lastwrite
    (ops : List SysOp) (s : SysState) (items : List AuditItem)
    (envs : List PipelineEnv) (now : String) (item : AuditItem)
    (hmem : item ∈ items) :
    keysNodup (sysRun sysInit ops).db ∧
    ∃ u, dbGet (sysStep s (SysOp.post items envs now)).db item.id =
      some (freshRecord u now) := by
  constructor
  · exact keysNodup_sysRun ops sysInit (by simp [sysInit, keysNodup])
  · have hne : items ≠ [] := List.ne_nil_of_mem hmem
    have hstep : (sysStep s (SysOp.post items envs now)).db
        = insertProcessing s.db items now := by
      simp only [sysStep]
      rw [if_neg hne]
    rw [hstep]
    have hsome : (lastUrl items item.id).isSome = true := by
      unfold lastUrl
      have hfs : (items.reverse.find? (fun i => i.id == item.id)).isSome = true :=
        List.find?_isSome.mpr ⟨item, List.mem_reverse.mpr hmem, by simp⟩
      cases hfind : items.reverse.find? (fun i => i.id == item.id) with
      | none => rw [hfind] at hfs; simp at hfs
      | some v => rfl
    obtain ⟨u, hu⟩ := Option.isSome_iff_exists.mp hsome
    refine ⟨u, ?_⟩
    rw [insertProcessing_get items s.db now item.id, hu]

/-- C6 witness: the amended theorem applied to the concrete resubmission
trace and a concrete second submission. -/
theorem C6_witness :
    keysNodup (sysRun sysInit resubTrace).db ∧
    ∃ u, dbGet (sysStep sysInit (SysOp.post items2 [] now0)).db ("item-x") =
      some (freshRecord u now0) :=
  C6_one_row_reset_lastwrite resubTrace sysInit items2 [] now0
    { url := "http://example.com/x.pdf", id := "item-x" } (by decide)

/-- Invariant of the semaphore transition system: permits in flight plus
free permits always total `MAX_CONCURRENT`. -/
theorem limiter_invariant : ∀ s : LimState, LimReach s →
    s.available + s.active = MAX_CONCURRENT := by
  intro s h
  induction h with
  | init => rfl
  | step hr hst ih =>
      cases hst with
      | acquire hav =>
          simp [MAX_CONCURRENT] at ih ⊢
          omega
      | release hac =>
          simp [MAX_CONCURRENT] at ih ⊢
          omega

/-- C7: in every state the process-wide semaphore (the single
`asyncio.Semaphore(MAX_CONCURRENT)` all pipelines of all batches
acquire around download-through-evaluation) can reach, at most
`MAX_CONCURRENT` = 5 pipelines are inside the guarded section. -/
theorem C7_at_most_five_pipelines_active (s : LimState) (h : LimReach s) :
    s.active ≤ MAX_CONCURRENT := by
  have h5 : s.available + s.active = 5 := limiter_invariant s h
  show s.active ≤ 5
  omega

/-- C7 witness: the bound applied to a concrete reachable state (one
pipeline inside the guarded section). -/
theorem C7_witness :
    LimReach { available := 4, active := 1 } ∧
    ({ available := 4, active := 1 } : LimState).active ≤ MAX_CONCURRENT := by
  have hstep : LimStep limInit { available := 4, active := 1 } :=
    LimStep.acquire limInit (by decide)
  have hreach : LimReach { available := 4, active := 1 } :=
    LimReach.step LimReach.init hstep
  exact ⟨hreach, C7_at_most_five_pipelines_active _ hreach⟩

/-- C8: on a store satisfying the primary-key invariant,
`GET /audit/{item_id}` returns the row's fields when the row exists, and
the distinguishable `{item_id, status: "failure"}` shape (returned, not
raised) when the id is unknown. -/
theorem C8_get_lookup (db : DB) (item_id : String) (r : JobRecord)
    (hnd : keysNodup db) :
    ((item_id, r) ∈ db → get_item_result db item_id =
        GetResponse.record item_id r.pdf_url r.status (resultField r)
          r.error_message r.processing_time r.create_time) ∧
    (item_id ∉ db.map Prod.fst →
        get_item_result db item_id = GetResponse.failureShape item_id ("failure")) := by
  constructor
  · intro hmem
    unfold get_item_result
    rw [dbGet_of_mem item_id r db hnd hmem]
  · intro habs
    unfold get_item_result
    rw [dbGet_eq_none db item_id habs]

/-- C8 witness: the lookup theorem applied to a concrete one-row store. -/
theorem C8_witness :
    (("item-w", recW) ∈ db8 → get_item_result db8 ("item-w") =
        GetResponse.record ("item-w") recW.pdf_url recW.status (resultField recW)
          recW.error_message recW.processing_time recW.create_time) ∧
    ("item-w" ∉ db8.map Prod.fst →
        get_item_result db8 ("item-w") = GetResponse.failureShape ("item-w") ("failure")) :=
  C8_get_lookup db8 ("item-w") recW (by unfold keysNodup; decide)

/-- C9: for every successfully parsed PDF, the text produced by
`extract_pdf_text` (and handed to `build_audit_prompt` by the pipeline)
is the page texts joined with newlines, truncated at the end of the
FIRST occurrence of the marker sentence `SENTENCES` when it occurs —
the output then ends with the marker and everything after that first
occurrence is cut off — and is the full joined text otherwise. -/
theorem C9_truncation_at_first_marker (content : PdfBytes) (pages : List String)
    (hparse : content.parsed = Except.ok pages) :
    ∃ txt, extract_pdf_text content = Except.ok txt ∧
      ((∀ j, occursAt SENTENCES.toList (String.intercalate ("\n") pages).toList j = false) →
        txt = String.intercalate ("\n") pages) ∧
      (∀ j, occursAt SENTENCES.toList (String.intercalate ("\n") pages).toList j = true →
        ∃ i, occursAt SENTENCES.toList (String.intercalate ("\n") pages).toList i = true ∧
          (∀ j2, occursAt SENTENCES.toList (String.intercalate ("\n") pages).toList j2 = true →
            i ≤ j2) ∧
          txt.toList = (String.intercalate ("\n") pages).toList.take (i + SENTENCES.toList.length) ∧
          (∃ pre, txt.toList = pre ++ SENTENCES.toList) ∧
          txt.toList ++ (String.intercalate ("\n") pages).toList.drop (i + SENTENCES.toList.length)
            = (String.intercalate ("\n") pages).toList) := by
  refine ⟨truncateAtSentence (String.intercalate ("\n") pages), ?_, ?_, ?_⟩
  · unfold extract_pdf_text
    rw [hparse]
  · intro hno
    unfold truncateAtSentence
    cases hf : findStopEnd SENTENCES.toList (String.intercalate ("\n") pages).toList with
    | none => rfl
    | some e =>
        exfalso
        obtain ⟨hle, hocc, _⟩ := findStopEnd_some _ _ e hf
        rw [hno] at hocc
        simp at hocc
  · intro j hj
    cases hf : findStopEnd SENTENCES.toList (String.intercalate ("\n") pages).toList with
    | none =>
        exfalso
        have hnone := findStopEnd_none _ _ hf j
        rw [hnone] at hj
        simp at hj
    | some e =>
        obtain ⟨hle, hocc, hmin⟩ := findStopEnd_some _ _ e hf
        have htxt : (truncateAtSentence (String.intercalate ("\n") pages)).toList
            = (String.intercalate ("\n") pages).toList.take e := by
          unfold truncateAtSentence
          rw [hf]
          rfl
        have he : e - SENTENCES.toList.length + SENTENCES.toList.length = e := by omega
        refine ⟨e - SENTENCES.toList.length, hocc, hmin, ?_, ?_, ?_⟩
        · rw [htxt, he]
        · obtain ⟨rest, hrest⟩ := List.isPrefixOf_iff_prefix.mp hocc
          refine ⟨(String.intercalate ("\n") pages).toList.take (e - SENTENCES.toList.length), ?_⟩
          rw [htxt]
          conv_lhs => rw [← he]
          rw [List.take_add]
          congr 1
          rw [← hrest]
          exact List.take_left SENTENCES.toList rest
        · rw [htxt, he]
          exact List.take_append_drop e (String.intercalate ("\n") pages).toList

/-- C9 witness: the truncation theorem applied to a concrete document
containing the marker sentence. -/
theorem C9_witness :
    ∃ txt, extract_pdf_text contentMarked = Except.ok txt ∧
      ((∀ j, occursAt SENTENCES.toList (String.intercalate ("\n") pagesMarked).toList j = false) →
        txt = String.intercalate ("\n") pagesMarked) ∧
      (∀ j, occursAt SENTENCES.toList (String.intercalate ("\n") pagesMarked).toList j = true →
        ∃ i, occursAt SENTENCES.toList (String.intercalate ("\n") pagesMarked).toList i = true ∧
          (∀ j2, occursAt SENTENCES.toList (String.intercalate ("\n") pagesMarked).toList j2 = true →
            i ≤ j2) ∧
          txt.toList = (String.intercalate ("\n") pagesMarked).toList.take
            (i + SENTENCES.toList.length) ∧
          (∃ pre, txt.toList = pre ++ SENTENCES.toList) ∧
          txt.toList ++ (String.intercalate ("\n") pagesMarked).toList.drop
            (i + SENTENCES.toList.length)
            = (String.intercalate ("\n") pagesMarked).toList) :=
  C9_truncation_at_first_marker contentMarked pagesMarked rfl

/-- C10: a payload repeating the same `item_id` is not rejected: the
handler answers `success`, the store ends with exactly one row for that
id (the last occurrence's URL), one pipeline task is scheduled per
occurrence, and both terminal writes target that single row with the
last writer winning — running the first occurrence's pipeline before the
second changes nothing about the final row compared to running the
second alone. -/
theorem C10_duplicate_ids_one_row_lastwrite (a u1 u2 now : String) (e1 e2 : PipelineEnv) :
    (process_audit_request [] [{ url := u1, id := a }, { url := u2, id := a }] now).response
        = PostResponse.ok ("success") postOkMessage ∧
    (process_audit_request [] [{ url := u1, id := a }, { url := u2, id := a }] now).db
        = [(a, freshRecord u2 now)] ∧
    (process_audit_request [] [{ url := u1, id := a }, { url := u2, id := a }] now).scheduled.flatten
        = [{ url := u1, id := a }, { url := u2, id := a }] ∧
    dbGet (process_pdf_url e2 u2 a
        (process_pdf_url e1 u1 a [(a, freshRecord u2 now)]).1).1 a =
      dbGet (process_pdf_url e2 u2 a [(a, freshRecord u2 now)]).1 a := by
  have hne : ([{ url := u1, id := a }, { url := u2, id := a }] : List AuditItem) ≠ [] := by
    simp
  refine ⟨?_, ?_, ?_, ?_⟩
  · unfold process_audit_request
    rw [if_neg hne]
  · unfold process_audit_request
    rw [if_neg hne]
    show dbUpsert (dbUpsert [] a (freshRecord u1 now)) a (freshRecord u2 now)
        = [(a, freshRecord u2 now)]
    simp [dbUpsert, List.filter_cons]
  · unfold process_audit_request
    rw [if_neg hne]
    exact chunkList_flatten 4 [{ url := u1, id := a }, { url := u2, id := a }]
  · show dbGet (dbUpdate (dbUpdate [(a, freshRecord u2 now)] a (terminalUpdate e1 u1)) a
        (terminalUpdate e2 u2)) a
      = dbGet (dbUpdate [(a, freshRecord u2 now)] a (terminalUpdate e2 u2)) a
    rw [dbGet_dbUpdate_self, dbGet_dbUpdate_self, dbGet_dbUpdate_self]
    have hg : dbGet [(a, freshRecord u2 now)] a = some (freshRecord u2 now) := by
      simp [dbGet, List.find?]
    rw [hg]
    simp only [Option.map_some']
    rw [terminalUpdate_overwrite]
